import Mathlib

/-!
Shallow embedding of `src/crowdstrike /cs_last2runs_validateoutput.py`.

The script queries a vendor API for executions of a scheduled report,
selects the two most recent execution records, downloads and converts each
"DONE" execution's CSV bytes to a spreadsheet, and diffs the two saved
spreadsheets on five identity columns.

Modelling conventions:
* Python strings are Lean `String`s; Python's string comparison is
  lexicographic on code points, embedded here as `lexLt` on `List Char`
  via `Char.toNat` (Lean's built-in `String` order does not reduce in the
  kernel, so we embed the order directly).
* `dict.get("created_on")` yields `Option String`; the fields accessed
  with `exec_status["status"]`, `exec_status["id"]`,
  `exec_status["scheduled_report_id"]` are modelled as total fields of the
  record, per the vendor data model (their absence is exercised by no
  claim).
* Python exceptions that the script does not catch are modelled by
  `Except`: `sorted` raises `TypeError` when a `None` sort key is
  compared, and `datetime.strptime` raises `ValueError` on a
  non-conforming string.
* The vendor SDK, the spreadsheet library, and the process clock are
  external collaborators; they enter as parameters (`Sdk.get_download`,
  the `read_file` table oracle, `today`).
-/

namespace CsValidate

/-- Python's `<` on strings: strict lexicographic order on code points,
with a proper prefix ordered first. -/
def lexLt : List Char → List Char → Bool
  | _, [] => false
  | [], _ :: _ => true
  | a :: as, b :: bs => a.toNat < b.toNat || (a.toNat == b.toNat && lexLt as bs)

/-- One execution status record, as exposed by the batch status-fetch API
(`status`, `id`, `scheduled_report_id` are accessed by direct subscript in
the script; `created_on` is accessed with `.get` and may be absent). -/
structure ExecRecord where
  id : String
  scheduled_report_id : String
  status : String
  created_on : Option String
deriving DecidableEq, Repr

/-- Exceptions the script can leave uncaught inside `process_executions`. -/
inductive PyError where
  /-- `sorted` comparing a `None` key (`x.get("created_on")`) with anything. -/
  | typeError
  /-- `datetime.strptime` rejecting a non-conforming timestamp string. -/
  | valueError
deriving DecidableEq, Repr

/-- The sort key of `sorted(run_list, key=lambda x: x.get("created_on"), ...)`. -/
def sortKey (r : ExecRecord) : Option String := r.created_on

/-- `a` may be placed before `b` in the descending sort: its key is `≥`.
The `none` branches are never exercised by a run that sorts successfully
(Python raises `TypeError` instead, see `selectRuns`); they are fixed so
that the relation is total and transitive. -/
def keyGe : Option String → Option String → Bool
  | none, _ => true
  | some _, none => false
  | some x, some y => !(lexLt x.data y.data)

/-- Ordering used by `sorted(..., key=..., reverse=True)`: descending on keys. -/
def descLe (a b : ExecRecord) : Bool := keyGe (sortKey a) (sortKey b)

/-- `descLe` as a relation, for the stable-sort library lemmas. -/
def descRel (a b : ExecRecord) : Prop := descLe a b = true

instance : DecidableRel descRel := fun a b =>
  inferInstanceAs (Decidable (descLe a b = true))

/-- `sorted(run_list, key=lambda x: x.get("created_on"), reverse=True)[:2]`.

CPython's `sorted` is a stable comparison sort; with `reverse=True` it
keeps equal-key elements in their original order.  Insertion sort with the
total preorder `descRel` produces the same list (the output of a stable
sort is determined by sortedness, permutation and stability).  When the
list has at least two elements and some key is `None`, every element takes
part in at least one comparison and any comparison against `None` raises
`TypeError`; lists of length `< 2` are compared zero times and never
raise. -/
def selectRuns (run_list : List ExecRecord) : Except PyError (List ExecRecord) :=
  if 2 ≤ run_list.length ∧ run_list.any (fun r => (sortKey r).isNone) then
    .error .typeError
  else
    .ok ((List.insertionSort descRel run_list).take 2)

/-! ### `datetime.strptime(s, "%Y-%m-%dT%H:%M:%S.%fZ")`

CPython's `_strptime` compiles the format to a regular expression
(`%Y` → four digits, `%m` → `1[0-2]|0[1-9]|[1-9]`, `%d` →
`3[01]|[12]\d|0[1-9]|[1-9]`, `%H` → `2[0-3]|[0-1]\d|\d`, `%M` →
`[0-5]\d|\d`, `%S` → `6[0-1]|[0-5]\d|\d`, `%f` → `[0-9]{1,6}`), requires
the match to consume the whole string, and then builds a `datetime`,
which additionally requires `year ≥ 1`, a day valid for the month, and
`second ≤ 59`.  Because every field is followed by a non-digit literal,
regex backtracking between the two-digit and one-digit alternatives never
rescues a failed parse, so the greedy two-digit-first reading below is
equivalent. -/

def isDigitChar (c : Char) : Bool := 48 ≤ c.toNat && c.toNat ≤ 57

def digitVal (c : Char) : Nat := c.toNat - 48

def natOfDigits (ds : List Char) : Nat := ds.foldl (fun a c => 10 * a + digitVal c) 0

/-- Parse a field matching a two-digit alternative (validated by `valid2`)
or else a single-digit alternative (validated by `valid1`). -/
def parseField2 (valid2 valid1 : Nat → Bool) : List Char → Option (Nat × List Char)
  | c1 :: c2 :: rest =>
    if isDigitChar c1 && isDigitChar c2 then
      let v := 10 * digitVal c1 + digitVal c2
      if valid2 v then some (v, rest) else none
    else if isDigitChar c1 then
      if valid1 (digitVal c1) then some (digitVal c1, c2 :: rest) else none
    else none
  | [c1] =>
    if isDigitChar c1 && valid1 (digitVal c1) then some (digitVal c1, []) else none
  | [] => none

/-- `%Y`: exactly four digits. -/
def parseYear4 : List Char → Option (Nat × List Char)
  | c1 :: c2 :: c3 :: c4 :: rest =>
    if isDigitChar c1 && isDigitChar c2 && isDigitChar c3 && isDigitChar c4 then
      some (natOfDigits [c1, c2, c3, c4], rest)
    else none
  | _ => none

def expectChar (c : Char) : List Char → Option (List Char)
  | d :: rest => if d = c then some rest else none
  | [] => none

/-- Longest run of leading digits. -/
def takeDigits : List Char → List Char × List Char
  | [] => ([], [])
  | c :: cs =>
    if isDigitChar c then
      let p := takeDigits cs
      (c :: p.1, p.2)
    else ([], c :: cs)

def isLeapYear (y : Nat) : Bool := y % 4 == 0 && (y % 100 != 0 || y % 400 == 0)

def daysInMonth (y m : Nat) : Nat :=
  if m = 2 then (if isLeapYear y then 29 else 28)
  else if m = 4 ∨ m = 6 ∨ m = 9 ∨ m = 11 then 30
  else 31

structure PyDateTime where
  year : Nat
  month : Nat
  day : Nat
  hour : Nat
  minute : Nat
  second : Nat
  microsecond : Nat
deriving DecidableEq, Repr

/-- `datetime.strptime(s, "%Y-%m-%dT%H:%M:%S.%fZ")`; `none` is a
`ValueError`. -/
def strptime6 (s : String) : Option PyDateTime := do
  let (y, r1) ← parseYear4 s.data
  let r2 ← expectChar '-' r1
  let (mo, r3) ← parseField2 (fun v => 1 ≤ v && v ≤ 12) (fun v => 1 ≤ v) r2
  let r4 ← expectChar '-' r3
  let (d, r5) ← parseField2 (fun v => 1 ≤ v && v ≤ 31) (fun v => 1 ≤ v) r4
  let r6 ← expectChar 'T' r5
  let (h, r7) ← parseField2 (fun v => v ≤ 23) (fun _ => true) r6
  let r8 ← expectChar ':' r7
  let (mi, r9) ← parseField2 (fun v => v ≤ 59) (fun _ => true) r8
  let r10 ← expectChar ':' r9
  let (sec, r11) ← parseField2 (fun v => v ≤ 61) (fun _ => true) r10
  let r12 ← expectChar '.' r11
  let p := takeDigits r12
  if p.1.length = 0 ∨ 6 < p.1.length then none
  else do
    let us := natOfDigits p.1 * 10 ^ (6 - p.1.length)
    let r13 ← expectChar 'Z' p.2
    -- the regex must consume the whole string, and `datetime(...)`
    -- validates year, day-of-month and second
    if r13 = [] ∧ 1 ≤ y ∧ d ≤ daysInMonth y mo ∧ sec ≤ 59 then
      some ⟨y, mo, d, h, mi, sec, us⟩
    else none

def pad2 (n : Nat) : String := if n < 10 then "0" ++ toString n else toString n

def pad4 (n : Nat) : String :=
  if n < 10 then "000" ++ toString n
  else if n < 100 then "00" ++ toString n
  else if n < 1000 then "0" ++ toString n
  else toString n

/-- `created_on_date.strftime("%Y%m%d")`. -/
def fmtYMD (dt : PyDateTime) : String := pad4 dt.year ++ pad2 dt.month ++ pad2 dt.day

/-- The date-suffix derivation at the top of the per-execution loop:
`exec_status.get("created_on", "Unknown Date")`, truncate to 26
characters, append `"Z"`, parse, format as `YYYYMMDD`; `"unknown"` when
the record has no `created_on`.  The `strptime` call sits outside every
`try` block, so a failed parse is an uncaught `ValueError`. -/
def dateSuffix (exec_status : ExecRecord) : Except PyError String :=
  -- `.get("created_on", "Unknown Date")` yields the stored value when the
  -- key is present and the default otherwise; the inner test keeps the
  -- source's comparison against the default sentinel.
  match exec_status.created_on with
  | some created_on_str =>
    if created_on_str ≠ "Unknown Date" then
      match strptime6 (created_on_str.take 26 ++ "Z") with
      | some dt => .ok (fmtYMD dt)
      | none => .error .valueError
    else
      .ok "unknown"
  | none => .ok "unknown"

/-! ### Stage 4.3: the per-execution loop -/

/-- Python `str.upper()` restricted to ASCII; every status string the
script compares is ASCII. -/
def asciiUpper (c : Char) : Char :=
  if 97 ≤ c.toNat ∧ c.toNat ≤ 122 then Char.ofNat (c.toNat - 32) else c

def pyUpper (s : String) : String := ⟨s.data.map asciiUpper⟩

/-- Result of `sdk.get_download(exec_id)` as the script distinguishes it:
Python-falsy (`None` or `b""`), truthy but not a `bytes` instance, or a
`bytes` payload.  `writeOk` abstracts whether the `try` block
(decode as UTF-8, split lines, CSV-parse, build and save the workbook)
succeeds; its internals live in external libraries and every claim treats
them only through success or failure. -/
inductive ReportDetail where
  | empty
  | notBytes
  | bytes (writeOk : Bool)
deriving DecidableEq, Repr

/-- The one SDK operation stage 4.3 consumes. -/
structure Sdk where
  get_download : String → ReportDetail

/-- One iteration of the loop body of `process_executions`: the filename
it appends to `saved_files`, if any.  The date suffix is derived before
the status test, mirroring the statement order in the source. -/
def processOne (sdk : Sdk) (exec_status : ExecRecord) : Except PyError (Option String) := do
  let date_suffix ← dateSuffix exec_status
  if pyUpper exec_status.status = "DONE" then
    match sdk.get_download exec_status.id with
    | .empty => pure none            -- "Unable to retrieve report for execution ..."
    | .notBytes => pure none         -- "Report detail is not in bytes format ..."
    | .bytes ok =>
      if ok then pure (some (exec_status.id ++ "_" ++ date_suffix ++ ".xlsx"))
      else pure none                 -- except branch: "Failed to process report ..."
  else
    pure none                        -- "Skipping ... as not yet finished."

/-- The `for exec_status in sorted_runs` loop, accumulating `saved_files`. -/
def runLoop (sdk : Sdk) : List ExecRecord → List String → Except PyError (List String)
  | [], saved_files => .ok saved_files
  | r :: rest, saved_files =>
    match processOne sdk r with
    | .error e => .error e
    | .ok none => runLoop sdk rest saved_files
    | .ok (some name) => runLoop sdk rest (saved_files ++ [name])

/-- `process_executions(sdk, run_list)`: select the two most recent runs,
then run the loop; an uncaught exception is an `Except.error`. -/
def process_executions (sdk : Sdk) (run_list : List ExecRecord) : Except PyError (List String) :=
  match selectRuns run_list with
  | .error e => .error e
  | .ok sorted_runs => runLoop sdk sorted_runs []

/-! ### Stage 4: `compare_excel_files`

A spreadsheet is a list of rows.  A row carries the five identity
columns, each an optional cell (`none` is pandas `NaN`), plus the
remaining unmodeled columns.  `pd.merge` matches `NaN` join keys with
`NaN` (unlike SQL), so plain equality of `Option` cells is the join
condition. -/

/-- The five identity columns
`['CVE ID', 'Image repository', 'Image tag', 'Image name', 'Image registry']`. -/
structure IdentityKey where
  cveId : Option String
  imageRepository : Option String
  imageTag : Option String
  imageName : Option String
  imageRegistry : Option String
deriving DecidableEq, Repr

structure VulnRow where
  cveId : Option String
  imageRepository : Option String
  imageTag : Option String
  imageName : Option String
  imageRegistry : Option String
  /-- the "other unmodeled columns" of a report row -/
  extras : List (Option String)
deriving DecidableEq, Repr

def keyOf (r : VulnRow) : IdentityKey :=
  ⟨r.cveId, r.imageRepository, r.imageTag, r.imageName, r.imageRegistry⟩

def sameKeys (a b : VulnRow) : Bool := decide (keyOf a = keyOf b)

/-- `df.dropna(subset=['CVE ID'])`. -/
def dropnaCVE (t : List VulnRow) : List VulnRow := t.filter (fun r => r.cveId.isSome)

/-- `pd.merge(left, right, on=keys, how='left', indicator=True)`: each
left row with no key match yields one result row tagged `left_only`
(second component `none`); each match yields one result row tagged
`both` (second component the matching right row). -/
def mergeLeftIndicator (left right : List VulnRow) : List (VulnRow × Option VulnRow) :=
  left.flatMap (fun l =>
    match right.filter (fun r => sameKeys l r) with
    | [] => [(l, none)]
    | ms => ms.map (fun m => (l, some m)))

/-- `compare_excel_files(file1, file2)`: the argument named `file1` is
bound to the variable `older_data`, `file2` to `newer_data`; the output
file is named from the current date (`today` stands for
`datetime.now().strftime('%Y_%m_%d')`), and carries the five identity
columns of the `left_only` rows. -/
def compare_excel_files (today : String) (file1 file2 : List VulnRow) :
    String × List IdentityKey :=
  let older_data := dropnaCVE file1
  let newer_data := dropnaCVE file2
  let comparison := mergeLeftIndicator newer_data older_data
  let unique_values := comparison.filter (fun p => p.2.isNone)
  let output_file_name := today ++ "_ImageVulnerabilityAssessment.xlsx"
  (output_file_name, unique_values.map (fun p => keyOf p.1))

/-! ### Stages 1, 2 and the `__main__` block -/

/-- A vendor API response as the script consumes it: `status_code` plus
`body.resources`. -/
structure ApiResponse (α : Type) where
  status_code : Nat
  resources : α

/-- How a run of the program can halt before producing its outputs. -/
inductive ProgramHalt where
  /-- `raise SystemExit(msg)` in the two lookup stages. -/
  | systemExit (msg : String)
  /-- an exception escaping `process_executions`. -/
  | uncaught (e : PyError)
deriving DecidableEq, Repr

def executionsQueryMsg : String :=
  "Unable to retrieve report executions from the CrowdStrike API, check API key permissions."

def executionStatusesMsg : String :=
  "Unable to retrieve execution statuses from the CrowdStrike API."

/-- `retrieve_report_executions`: `SystemExit` unless the query response
status is 200, else the resource list (the execution IDs). -/
def retrieve_report_executions (resp : ApiResponse (List String)) :
    Except ProgramHalt (List String) :=
  if resp.status_code ≠ 200 then .error (.systemExit executionsQueryMsg)
  else .ok resp.resources

/-- `get_report_execution_runs`: `SystemExit` unless the batch
status-fetch response status is 200, else the execution status records. -/
def get_report_execution_runs (resp : ApiResponse (List ExecRecord)) :
    Except ProgramHalt (List ExecRecord) :=
  if resp.status_code ≠ 200 then .error (.systemExit executionStatusesMsg)
  else .ok resp.resources

/-- Everything the program reads from the outside world in one run: the
two API responses (the second is the response to the batch status fetch
for the IDs found by the first), the download operation, the current
date, and the contents `pd.read_excel` returns for each saved filename. -/
structure Env where
  query_response : ApiResponse (List String)
  status_response : ApiResponse (List ExecRecord)
  get_download : String → ReportDetail
  today : String
  read_file : String → List VulnRow

/-- The `__main__` comparison branch: compare only when exactly two files
were saved (`if len(saved_files) == 2`), unpacking them positionally as
`file1, file2`; otherwise log and produce nothing. -/
def mainStage (today : String) (fs : String → List VulnRow) (saved_files : List String) :
    Option (String × List IdentityKey) :=
  match saved_files with
  | [file1, file2] => some (compare_excel_files today (fs file1) (fs file2))
  | _ => none                        -- "Not enough files saved for comparison."

/-- The whole `__main__` block: the two lookup stages, stage 4.3, and the
comparison branch.  The normal result is the saved-files list plus the
comparison output (name and emitted rows), when one was produced. -/
def mainProgram (env : Env) :
    Except ProgramHalt (List String × Option (String × List IdentityKey)) := do
  let _ids ← retrieve_report_executions env.query_response
  let runs ← get_report_execution_runs env.status_response
  match process_executions ⟨env.get_download⟩ runs with
  | .error e => .error (.uncaught e)
  | .ok saved_files => .ok (saved_files, mainStage env.today env.read_file saved_files)

/-- A record whose sort key is comparable and whose date suffix derives
without a `ValueError`: the conditions under which the per-record code in
stage 4.3 raises nothing. -/
def noThrowRecord (r : ExecRecord) : Bool :=
  r.created_on.isSome && (dateSuffix r).toOption.isSome

deriving instance DecidableEq for Except

set_option maxRecDepth 8000

/-! ### Facts about the embedded orders -/

theorem charEqOfToNat {x y : Char} (h : x.toNat = y.toNat) : x = y :=
  Char.eq_of_val_eq (UInt32.eq_of_toBitVec_eq (BitVec.eq_of_toNat_eq h))

theorem lexLt_asymm : ∀ a b : List Char, lexLt a b = true → lexLt b a = false
  | a, [], h => by simp [lexLt] at h
  | [], _ :: _, _ => by simp [lexLt]
  | a :: as, b :: bs, h => by
    simp only [lexLt, Bool.or_eq_true, Bool.and_eq_true, beq_iff_eq,
      decide_eq_true_eq] at h
    simp only [lexLt, Bool.or_eq_false_iff, Bool.and_eq_false_iff,
      beq_eq_false_iff_ne, ne_eq, decide_eq_false_iff_not, not_lt]
    rcases h with h | ⟨he, h⟩
    · exact ⟨by omega, Or.inl (by omega)⟩
    · exact ⟨by omega, Or.inr (lexLt_asymm as bs h)⟩

theorem lexLt_trans :
    ∀ a b c : List Char, lexLt a b = true → lexLt b c = true → lexLt a c = true
  | _, b, [], _, h2 => by simp [lexLt] at h2
  | a, [], _ :: _, h1, _ => by simp [lexLt] at h1
  | [], _ :: _, _ :: _, _, _ => by simp [lexLt]
  | a :: as, b :: bs, c :: cs, h1, h2 => by
    simp only [lexLt, Bool.or_eq_true, Bool.and_eq_true, beq_iff_eq,
      decide_eq_true_eq] at h1 h2 ⊢
    rcases h1 with h1 | ⟨e1, h1⟩
    · rcases h2 with h2 | ⟨e2, h2⟩
      · exact Or.inl (Nat.lt_trans h1 h2)
      · exact Or.inl (e2 ▸ h1)
    · rcases h2 with h2 | ⟨e2, h2⟩
      · exact Or.inl (e1 ▸ h2)
      · exact Or.inr ⟨e1.trans e2, lexLt_trans as bs cs h1 h2⟩

theorem eq_of_lexLt_false (a b : List Char) (hab : lexLt a b = false)
    (hba : lexLt b a = false) : a = b := by
  induction a generalizing b with
  | nil => cases b with
    | nil => rfl
    | cons x xs => simp [lexLt] at hab
  | cons x xs ih =>
    cases b with
    | nil => simp [lexLt] at hba
    | cons y ys =>
      simp only [lexLt, Bool.or_eq_false_iff, Bool.and_eq_false_iff,
        decide_eq_false_iff_not, not_lt, beq_eq_false_iff_ne, ne_eq] at hab hba
      obtain ⟨hxy, hab'⟩ := hab
      obtain ⟨hyx, hba'⟩ := hba
      have hx : x.toNat = y.toNat := Nat.le_antisymm hyx hxy
      have hchar : x = y := charEqOfToNat hx
      rcases hab' with h | hab' <;> rcases hba' with h' | hba'
      · exact absurd hx h
      · exact absurd hx h
      · exact absurd hx.symm h'
      · exact hchar ▸ congrArg (x :: ·) (ih _ hab' hba')

theorem keyGe_trans (x y z : Option String) (hxy : keyGe x y = true)
    (hyz : keyGe y z = true) : keyGe x z = true := by
  match x, y, z with
  | none, _, _ => rfl
  | some _, none, _ => cases hxy
  | some _, some _, none => cases hyz
  | some a, some b, some c =>
    simp only [keyGe, Bool.not_eq_true'] at hxy hyz ⊢
    by_contra hac
    rw [Bool.not_eq_false] at hac
    cases hcb : lexLt c.data b.data with
    | true => exact absurd (lexLt_trans _ _ _ hac hcb) (by simp [hxy])
    | false =>
      have : b.data = c.data := eq_of_lexLt_false _ _ hyz hcb
      rw [← this] at hac
      exact absurd hac (by simp [hxy])

theorem keyGe_total (x y : Option String) : keyGe x y = true ∨ keyGe y x = true := by
  match x, y with
  | none, _ => exact Or.inl rfl
  | some _, none => exact Or.inr rfl
  | some a, some b =>
    simp only [keyGe, Bool.not_eq_true']
    cases h : lexLt a.data b.data with
    | false => exact Or.inl rfl
    | true => exact Or.inr (lexLt_asymm _ _ h)

instance : IsTrans ExecRecord descRel :=
  ⟨fun _ _ _ h1 h2 => keyGe_trans _ _ _ h1 h2⟩

instance : IsTotal ExecRecord descRel :=
  ⟨fun a b => keyGe_total (sortKey a) (sortKey b)⟩

theorem keyGe_refl (x : Option String) : keyGe x x = true := by
  match x with
  | none => rfl
  | some a =>
    simp only [keyGe, Bool.not_eq_true']
    cases h : lexLt a.data a.data with
    | false => rfl
    | true => exact ((lexLt_asymm _ _ h).symm.trans h).symm

/-! ### Facts about the per-execution loop -/

theorem processOne_of_dateSuffix_ok (sdk : Sdk) (r : ExecRecord) (s : String)
    (hds : dateSuffix r = .ok s) :
    processOne sdk r =
      (if pyUpper r.status = "DONE" then
        match sdk.get_download r.id with
        | .empty => .ok none
        | .notBytes => .ok none
        | .bytes ok => if ok then .ok (some (r.id ++ "_" ++ s ++ ".xlsx")) else .ok none
      else .ok none) := by
  unfold processOne
  rw [hds]
  rfl

theorem processOne_ok (sdk : Sdk) (r : ExecRecord)
    (h : (dateSuffix r).toOption.isSome = true) :
    ∃ v, processOne sdk r = .ok v := by
  match hds : dateSuffix r with
  | .error e => rw [hds] at h; cases h
  | .ok s =>
    rw [processOne_of_dateSuffix_ok sdk r s hds]
    by_cases hdone : pyUpper r.status = "DONE"
    · rw [if_pos hdone]
      cases sdk.get_download r.id with
      | empty => exact ⟨none, rfl⟩
      | notBytes => exact ⟨none, rfl⟩
      | bytes ok => cases ok with
        | false => exact ⟨none, rfl⟩
        | true => exact ⟨some (r.id ++ "_" ++ s ++ ".xlsx"), rfl⟩
    · rw [if_neg hdone]
      exact ⟨none, rfl⟩

theorem processOne_error (sdk : Sdk) (r : ExecRecord) (e : PyError)
    (hds : dateSuffix r = .error e) : processOne sdk r = .error e := by
  unfold processOne
  rw [hds]
  rfl

theorem processOne_done_empty (sdk : Sdk) (r : ExecRecord) (s : String)
    (hds : dateSuffix r = .ok s) (hdone : pyUpper r.status = "DONE")
    (hempty : sdk.get_download r.id = .empty) :
    processOne sdk r = .ok none := by
  rw [processOne_of_dateSuffix_ok sdk r s hds, if_pos hdone, hempty]

theorem runLoop_ok (sdk : Sdk) (l : List ExecRecord) (acc : List String)
    (h : ∀ r ∈ l, (dateSuffix r).toOption.isSome = true) :
    ∃ out, runLoop sdk l acc = .ok out := by
  induction l generalizing acc with
  | nil => exact ⟨acc, rfl⟩
  | cons r rest ih =>
    obtain ⟨v, hv⟩ := processOne_ok sdk r (h r (List.mem_cons_self r rest))
    have hrest : ∀ x ∈ rest, (dateSuffix x).toOption.isSome = true :=
      fun x hx => h x (List.mem_cons_of_mem r hx)
    cases v with
    | none =>
      obtain ⟨out, hout⟩ := ih acc hrest
      exact ⟨out, by rw [runLoop, hv]; exact hout⟩
    | some name =>
      obtain ⟨out, hout⟩ := ih (acc ++ [name]) hrest
      exact ⟨out, by rw [runLoop, hv]; exact hout⟩

theorem runLoop_skip (sdk : Sdk) (r : ExecRecord) (post : List ExecRecord)
    (hr : processOne sdk r = .ok none) :
    ∀ (pre : List ExecRecord) (acc : List String),
      runLoop sdk (pre ++ r :: post) acc = runLoop sdk (pre ++ post) acc := by
  intro pre
  induction pre with
  | nil => intro acc; rw [List.nil_append, List.nil_append, runLoop, hr]
  | cons p ps ih =>
    intro acc
    rw [List.cons_append, List.cons_append, runLoop, runLoop]
    cases processOne sdk p with
    | error e => rfl
    | ok v => cases v with
      | none => exact ih acc
      | some name => exact ih (acc ++ [name])

theorem runLoop_error (sdk : Sdk) (r : ExecRecord) (post : List ExecRecord) (e : PyError)
    (hr : processOne sdk r = .error e) :
    ∀ (pre : List ExecRecord), (∀ p ∈ pre, ∃ v, processOne sdk p = .ok v) →
      ∀ acc : List String, runLoop sdk (pre ++ r :: post) acc = .error e := by
  intro pre
  induction pre with
  | nil => intro _ acc; rw [List.nil_append, runLoop, hr]
  | cons p ps ih =>
    intro hpre acc
    obtain ⟨v, hv⟩ := hpre p (List.mem_cons_self p ps)
    have hps : ∀ q ∈ ps, ∃ w, processOne sdk q = .ok w :=
      fun q hq => hpre q (List.mem_cons_of_mem p hq)
    rw [List.cons_append, runLoop, hv]
    cases v with
    | none => exact ih hps acc
    | some name => exact ih hps (acc ++ [name])

/-! ### Facts about the comparison -/

theorem sameKeys_refl (r : VulnRow) : sameKeys r r = true := by
  simp [sameKeys]

theorem filter_isNone_mergeLeftIndicator (left right : List VulnRow) :
    (mergeLeftIndicator left right).filter (fun p => p.2.isNone) =
      (left.filter (fun l => !(right.any (fun r => sameKeys l r)))).map
        (fun l => (l, none)) := by
  induction left with
  | nil => rfl
  | cons l ls ih =>
    rw [mergeLeftIndicator, List.flatMap_cons, List.filter_append,
      show (List.flatMap ls _) = mergeLeftIndicator ls right from rfl, ih,
      List.filter_cons]
    cases hm : right.filter (fun r => sameKeys l r) with
    | nil =>
      have hany : right.any (fun r => sameKeys l r) = false := by
        rw [List.any_eq_false]
        intro r hr
        have := List.filter_eq_nil_iff.mp hm r hr
        simpa using this
      simp [hany]
    | cons m ms =>
      have hany : right.any (fun r => sameKeys l r) = true := by
        rw [List.any_eq_true]
        refine ⟨m, List.mem_of_mem_filter (hm ▸ List.mem_cons_self m ms), ?_⟩
        have := List.of_mem_filter (p := fun r => sameKeys l r)
          (hm ▸ List.mem_cons_self m ms)
        simpa using this
      have hnone : ((m :: ms).map (fun x => (l, some x))).filter
          (fun p => p.2.isNone) = [] := by
        rw [List.filter_eq_nil_iff]
        intro p hp
        obtain ⟨x, _, hx⟩ := List.mem_map.mp hp
        simp [← hx]
      simp [hany, hnone]

theorem compare_snd (today : String) (file1 file2 : List VulnRow) :
    (compare_excel_files today file1 file2).2 =
      ((dropnaCVE file2).filter
        (fun r => !((dropnaCVE file1).any (fun x => sameKeys r x)))).map keyOf := by
  unfold compare_excel_files
  simp only [filter_isNone_mergeLeftIndicator, List.map_map]
  rfl

/-! ### The claims -/

/-- C1 (code bug): the claim says the comparison stage emits exactly the
rows present only in the NEWER file (the execution with the more recent
`created_on`).  The code does the opposite: `saved_files` is ordered
newest first, so `file1` is the newer file; `compare_excel_files` binds
`file1` to `older_data`, left-joins `newer_data` (= `file2`, the older
file) onto it and keeps the `left_only` rows — the rows present only in
the OLDER file.  At this input, execution `EA` (created 2024-01-02) is
newer than `EB` (created 2024-01-01); `CVE-2024-0002` is the row present
only in the newer file, yet the program emits exactly `CVE-2024-0003`,
the row present only in the older file. -/
theorem comparison_emits_older_only_rows :
    mainProgram
      ⟨⟨200, ["EA", "EB"]⟩,
       ⟨200, [⟨"EB", "R", "DONE", some "2024-01-01T03:04:05.123456789Z"⟩,
              ⟨"EA", "R", "DONE", some "2024-01-02T03:04:05.123456789Z"⟩]⟩,
       fun _ => .bytes true,
       "2025_01_01",
       fun n =>
         if n = "EA_20240102.xlsx" then
           [⟨some "CVE-2024-0001", some "repo", some "tag", some "img", some "reg", []⟩,
            ⟨some "CVE-2024-0002", some "repoA", some "tagA", some "imgA", some "regA", []⟩]
         else if n = "EB_20240101.xlsx" then
           [⟨some "CVE-2024-0001", some "repo", some "tag", some "img", some "reg", []⟩,
            ⟨some "CVE-2024-0003", some "repoB", some "tagB", some "imgB", some "regB", []⟩]
         else []⟩ =
      .ok (["EA_20240102.xlsx", "EB_20240101.xlsx"],
           some ("2025_01_01_ImageVulnerabilityAssessment.xlsx",
                 [⟨some "CVE-2024-0003", some "repoB", some "tagB",
                   some "imgB", some "regB"⟩])) := by
  decide

/-- C2: the comparison procedure drops rows with a null CVE identifier
from each table, left-joins the second table onto the first on the five
identity columns, retains exactly the join results with no match, and
writes the five identity columns of the retained rows (in order, with
multiplicity) to the output spreadsheet named from the current date. -/
theorem compare_procedure_spec (today : String) (file1 file2 : List VulnRow) :
    compare_excel_files today file1 file2 =
      (today ++ "_ImageVulnerabilityAssessment.xlsx",
       ((dropnaCVE file2).filter
         (fun r => !((dropnaCVE file1).any (fun x => sameKeys r x)))).map keyOf) := by
  have h2 := compare_snd today file1 file2
  exact Prod.ext rfl h2

/-- C3 counterexample: the claim quantifies over every list of execution
status records, but with two records that lack `created_on` the selection
step raises `TypeError` (comparing `None` sort keys) and returns no
records at all. -/
theorem selection_counterexample :
    selectRuns [⟨"EA", "R", "DONE", none⟩, ⟨"EB", "R", "DONE", none⟩] =
      .error .typeError ∧
    (selectRuns [⟨"EA", "R", "DONE", none⟩, ⟨"EB", "R", "DONE", none⟩]).toOption
      = none := by
  decide

/-- C3 (amended): for every list of execution status records in which
each record carries a `created_on` value, selection returns at most 2
records, they are a prefix of a descending stable sort of the input by
`created_on` (hence ordered most recent first), and records with equal
`created_on` keep their original relative order. -/
theorem selection_at_most_two_desc_stable (runs : List ExecRecord)
    (h : ∀ r ∈ runs, (sortKey r).isSome = true) :
    ∃ out sortedAll,
      selectRuns runs = .ok out ∧
      out = sortedAll.take 2 ∧
      out.length ≤ 2 ∧
      sortedAll.Perm runs ∧
      sortedAll.Pairwise descRel ∧
      ∀ a b : ExecRecord, sortKey a = sortKey b → [a, b].Sublist runs →
        [a, b].Sublist sortedAll := by
  have hguard : ¬(2 ≤ runs.length ∧ runs.any (fun r => (sortKey r).isNone) = true) := by
    rintro ⟨-, hany⟩
    obtain ⟨r, hr, hnone⟩ := List.any_eq_true.mp hany
    have hs := h r hr
    rw [Option.isNone_iff_eq_none.mp hnone] at hs
    cases hs
  refine ⟨_, List.insertionSort descRel runs, ?_, rfl, List.length_take_le 2 _,
    List.perm_insertionSort descRel runs, List.sorted_insertionSort descRel runs,
    ?_⟩
  · unfold selectRuns
    rw [if_neg hguard]
  · intro a b hk hsub
    refine List.pair_sublist_insertionSort ?_ hsub
    show descLe a b = true
    unfold descLe
    rw [hk]
    exact keyGe_refl _

theorem selection_at_most_two_desc_stable_witness :
    ∃ out sortedAll,
      selectRuns [⟨"EA", "R", "DONE", some "2024-01-02T03:04:05.123456789Z"⟩,
                  ⟨"EB", "R", "DONE", some "2024-01-01T03:04:05.123456789Z"⟩] = .ok out ∧
      out = sortedAll.take 2 ∧
      out.length ≤ 2 ∧
      sortedAll.Perm [⟨"EA", "R", "DONE", some "2024-01-02T03:04:05.123456789Z"⟩,
                      ⟨"EB", "R", "DONE", some "2024-01-01T03:04:05.123456789Z"⟩] ∧
      sortedAll.Pairwise descRel ∧
      ∀ a b : ExecRecord, sortKey a = sortKey b →
        [a, b].Sublist [⟨"EA", "R", "DONE", some "2024-01-02T03:04:05.123456789Z"⟩,
                        ⟨"EB", "R", "DONE", some "2024-01-01T03:04:05.123456789Z"⟩] →
        [a, b].Sublist sortedAll :=
  selection_at_most_two_desc_stable _ (by decide)

/-- C4 counterexample: not every recoverable error is caught at its point
of origin — a present but malformed `created_on` (here with no fractional
seconds) escapes `process_executions` as an uncaught `ValueError`, even
though the record's status is not "DONE". -/
theorem exception_escapes_counterexample :
    process_executions ⟨fun _ => .empty⟩
      [⟨"E1", "R1", "PENDING", some "2024-01-02T03:04:05"⟩] =
      .error .valueError := by
  decide

/-- C4 (amended): for every input list of execution status records whose
`created_on` values are all present and parse under the fixed timestamp
format, no exception escapes `process_executions`; the remaining
recoverable errors (missing bytes, wrong content type, decode/parse/write
failure) are caught and converted to console messages. -/
theorem no_exception_escapes_on_wellformed_records (sdk : Sdk) (runs : List ExecRecord)
    (h : ∀ r ∈ runs, noThrowRecord r = true) :
    ∃ saved_files, process_executions sdk runs = .ok saved_files := by
  have hsel : selectRuns runs = .ok ((List.insertionSort descRel runs).take 2) := by
    unfold selectRuns
    rw [if_neg]
    rintro ⟨-, hany⟩
    obtain ⟨r, hr, hnone⟩ := List.any_eq_true.mp hany
    have hg := h r hr
    have hn : r.created_on = none := Option.isNone_iff_eq_none.mp hnone
    rw [noThrowRecord, hn] at hg
    cases hg
  obtain ⟨out, hout⟩ := runLoop_ok sdk ((List.insertionSort descRel runs).take 2) []
    (fun r hr => by
      have hmem : r ∈ runs :=
        (List.mem_insertionSort descRel).mp (List.mem_of_mem_take hr)
      have hg := h r hmem
      rw [noThrowRecord, Bool.and_eq_true] at hg
      exact hg.2)
  refine ⟨out, ?_⟩
  unfold process_executions
  rw [hsel]
  exact hout

theorem no_exception_escapes_on_wellformed_records_witness :
    ∃ saved_files,
      process_executions ⟨fun _ => .bytes true⟩
        [⟨"EA", "R", "DONE", some "2024-01-02T03:04:05.123456789Z"⟩,
         ⟨"EB", "R", "PENDING", some "2024-01-01T03:04:05.123456789Z"⟩] =
        .ok saved_files :=
  no_exception_escapes_on_wellformed_records _ _ (by decide)

/-- C5 (code bug): per the spec, two "DONE" records with no `created_on`
should both be saved under the literal "unknown" date suffix,
distinguishable only by execution identifier (the loop's own
`date_suffix = "unknown"` branch shows that intent).  Instead the program
crashes first: `sorted` compares the two `None` sort keys and raises
`TypeError`, so processing never completes. -/
theorem done_records_without_created_on_crash :
    process_executions ⟨fun _ => .bytes true⟩
      [⟨"EA", "R", "DONE", none⟩, ⟨"EB", "R", "DONE", none⟩] =
      .error .typeError := by
  decide

/-- C6: when fewer than two files were saved in stage 4.3, the comparison
stage is skipped entirely and no assessment output is produced (the
program then exits normally). -/
theorem skip_comparison_when_fewer_than_two (today : String)
    (fs : String → List VulnRow) (saved_files : List String)
    (h : saved_files.length ≤ 1) :
    mainStage today fs saved_files = none := by
  match saved_files with
  | [] => rfl
  | [x] => rfl
  | x :: y :: rest => simp [List.length_cons] at h

theorem skip_comparison_when_fewer_than_two_witness :
    mainStage "2025_01_01" (fun _ => []) ["EA_20240102.xlsx"] = none :=
  skip_comparison_when_fewer_than_two "2025_01_01" (fun _ => [])
    ["EA_20240102.xlsx"] (by decide)

/-- C7: a non-200 status from the execution query call, or from the batch
status-fetch call, terminates the program immediately with the
corresponding descriptive message; nothing after the failing call runs. -/
theorem non200_status_halts_program (env : Env) :
    (env.query_response.status_code ≠ 200 →
      mainProgram env = .error (.systemExit executionsQueryMsg)) ∧
    (env.query_response.status_code = 200 →
      env.status_response.status_code ≠ 200 →
      mainProgram env = .error (.systemExit executionStatusesMsg)) := by
  constructor
  · intro h
    unfold mainProgram retrieve_report_executions
    rw [if_pos h]
    rfl
  · intro h1 h2
    unfold mainProgram retrieve_report_executions get_report_execution_runs
    rw [if_neg (by simp [h1]), if_pos h2]
    rfl

theorem non200_status_halts_program_witness :
    mainProgram ⟨⟨500, []⟩, ⟨200, []⟩, fun _ => .empty, "2025_01_01", fun _ => []⟩ =
      .error (.systemExit executionsQueryMsg) ∧
    mainProgram ⟨⟨200, []⟩, ⟨503, []⟩, fun _ => .empty, "2025_01_01", fun _ => []⟩ =
      .error (.systemExit executionStatusesMsg) :=
  ⟨(non200_status_halts_program _).1 (by decide),
   (non200_status_halts_program _).2 rfl (by decide)⟩

/-- C8: a selected record whose status is "DONE" (case-insensitively) but
whose download returns an empty payload contributes no entry to the
saved-files list, and the loop continues exactly as if the remaining
executions were processed alone. -/
theorem done_empty_payload_no_file (sdk : Sdk) (runs pre post : List ExecRecord)
    (r : ExecRecord) (s : String)
    (hsel : selectRuns runs = .ok (pre ++ r :: post))
    (hsuffix : dateSuffix r = .ok s)
    (hdone : pyUpper r.status = "DONE")
    (hempty : sdk.get_download r.id = .empty) :
    process_executions sdk runs = runLoop sdk (pre ++ post) [] := by
  unfold process_executions
  rw [hsel]
  exact runLoop_skip sdk r post
    (processOne_done_empty sdk r s hsuffix hdone hempty) pre []

theorem done_empty_payload_no_file_witness :
    process_executions ⟨fun _ => .empty⟩
      [⟨"EA", "R", "Done", some "2024-01-02T03:04:05.123456789Z"⟩] =
      runLoop ⟨fun _ => .empty⟩ [] [] :=
  done_empty_payload_no_file ⟨fun _ => .empty⟩
    [⟨"EA", "R", "Done", some "2024-01-02T03:04:05.123456789Z"⟩] [] []
    ⟨"EA", "R", "Done", some "2024-01-02T03:04:05.123456789Z"⟩ "20240102"
    (by decide) (by decide) (by decide) (by decide)

/-- C9: comparing a file against itself emits zero rows: every
non-null-CVE row of the table matches itself under the five identity
columns, so no join result is unmatched. -/
theorem compare_self_yields_no_rows (today : String) (t : List VulnRow) :
    (compare_excel_files today t t).2 = [] := by
  rw [compare_snd]
  have hfil : (dropnaCVE t).filter
      (fun r => !((dropnaCVE t).any (fun x => sameKeys r x))) = [] := by
    rw [List.filter_eq_nil_iff]
    intro r hr
    have hany : (dropnaCVE t).any (fun x => sameKeys r x) = true :=
      List.any_eq_true.mpr ⟨r, hr, sameKeys_refl r⟩
    simp [hany]
  rw [hfil]
  rfl

/-- C10: for a selected record, the date-suffix derivation (truncate
`created_on` to 26 characters, append "Z", parse with the fixed format)
runs before the status check and outside every exception handler, so a
present but non-conforming `created_on` aborts `process_executions` with
an uncaught `ValueError` even though the record's status is not "DONE"
(provided the records before it in selection order process without
raising). -/
theorem malformed_created_on_aborts (sdk : Sdk) (runs pre post : List ExecRecord)
    (r : ExecRecord) (s : String)
    (hsel : selectRuns runs = .ok (pre ++ r :: post))
    (hpre : ∀ p ∈ pre, ∃ v, processOne sdk p = .ok v)
    (hcre : r.created_on = some s)
    (hne : s ≠ "Unknown Date")
    (hbad : strptime6 (s.take 26 ++ "Z") = none)
    (_hnotdone : pyUpper r.status ≠ "DONE") :
    process_executions sdk runs = .error .valueError := by
  have hds : dateSuffix r = .error .valueError := by
    unfold dateSuffix
    rw [hcre]
    split
    next c heq =>
      cases heq
      rw [if_pos hne, hbad]
    next heq => cases heq
  unfold process_executions
  rw [hsel]
  exact runLoop_error sdk r post .valueError
    (processOne_error sdk r .valueError hds) pre hpre []

theorem malformed_created_on_aborts_witness :
    process_executions ⟨fun _ => .bytes true⟩
      [⟨"E2", "R2", "PENDING", some "2024-01-02T03:04:05"⟩] =
      .error .valueError :=
  malformed_created_on_aborts ⟨fun _ => .bytes true⟩
    [⟨"E2", "R2", "PENDING", some "2024-01-02T03:04:05"⟩] [] []
    ⟨"E2", "R2", "PENDING", some "2024-01-02T03:04:05"⟩ "2024-01-02T03:04:05"
    (by decide) (fun p hp => absurd hp (List.not_mem_nil p))
    rfl (by decide) (by decide) (by decide)

end CsValidate
